import Mathlib

/-!
Shallow embedding of the certificate lifecycle core of `vault-openvpn`
(`src/main.go`), covering:

* the per-serial certificate read `fetchCertificateBySerial` (main.go:244-263),
  including its derived revoked classification (main.go:251-258);
* the directory build `fetchValidCertificatesFromVault` (main.go:265-292);
* the revocation operations `revokeCertificateByFQDN` (main.go:294-307) and
  `revokeCertificateBySerial` (main.go:309-330);
* the issue-with-auto-revoke pipeline `generateCertificateConfig`
  (main.go:204-228) with its collaborators `getCACert` (main.go:332-340) and
  `generateCertificate` (main.go:342-366).

The remote CA service (Vault's PKI backend) is an external collaborator; it is
modelled as an explicit `Backend` value describing which records exist under
`<mount>/cert/<serial>` and which calls fail.  Go panics (nil-pointer
dereference on a nil secret, failed type assertion on a missing response
field, `data.Bytes` on a failed `pem.Decode`) are modelled by the distinct
outcome `ReadResult.crash`, separate from an ordinary returned `error`
(`ReadResult.err`).  `time.Now().Unix()` is threaded as an explicit integer
parameter `now`, held constant over a single run of an operation.
-/

/-- A `json.Number` as it arrives in a Vault response: `Int64()` either
succeeds with a value or fails with a conversion error (main.go:253). -/
inductive JsonNumber
  | ok (n : Int)
  | bad
deriving DecidableEq, Repr

/-- The fields of an `x509.Certificate` that the program reads after a
successful parse: subject common name, the colon-separated hex form of the
serial (`certutil.GetHexFormatted(cert.SerialNumber.Bytes(), ":")`), and the
validity window as Unix timestamps. -/
structure ParsedCert where
  commonName : String
  serialHex : String
  notBefore : Int
  notAfter : Int
deriving DecidableEq, Repr

/-- What happens when the `certificate` PEM string of a response is run
through `pem.Decode` and `x509.ParseCertificate` (main.go:260-261):
`noBlock` means `pem.Decode` returns a nil block (so `data.Bytes` panics),
`badDER` means the block parses as PEM but `x509.ParseCertificate` returns an
error, `good c` is a successful parse. -/
inductive PemContent
  | noBlock
  | badDER
  | good (c : ParsedCert)
deriving DecidableEq, Repr

/-- A record stored by the CA under `<mount>/cert/<serial>`: an optional
`revocation_time` field (a `json.Number` when present, per the CA contract)
and an optional `certificate` field (`none` models the field being absent,
which makes the Go type assertion `cs.Data["certificate"].(string)` panic). -/
structure CertRecord where
  revocationTime : Option JsonNumber
  certificate : Option PemContent
deriving DecidableEq, Repr

/-- The remote CA backend as one run of the tool observes it: the stored
certificate records in `LIST <mount>/certs` order, plus which remote calls
fail at the transport or protocol level, and the data the CA would use for a
new issuance (`newSerial`, validity window, returned PEM material). -/
structure Backend where
  certs : List (String × CertRecord)
  readFail : List String
  listFail : Bool
  listDataNil : Bool
  revokeFail : Bool
  caFail : Bool
  issueFail : Bool
  issueDataNil : Bool
  tplFail : Bool
  newSerial : String
  newNotBefore : Int
  newNotAfter : Int
  caPem : String
  newCertPem : String
  newKeyPem : String
deriving DecidableEq, Repr

/-- Outcome of running a piece of the Go code: a panic (`crash`), a returned
`error` value (`err`), or a successful result (`ok`). -/
inductive ReadResult (α : Type)
  | crash
  | err (msg : String)
  | ok (a : α)
deriving DecidableEq, Repr

/-- Outcome of `client.Logical().Read("<mount>/cert/<serial>")`: a transport
error, a nil secret (Vault returns `(nil, nil)` for a path that does not
exist), or the stored record. -/
inductive RawRead
  | transportErr
  | notFound
  | found (r : CertRecord)
deriving DecidableEq, Repr

/-- First-match association lookup, the way Vault resolves
`<mount>/cert/<serial>` against the stored records. -/
def lookupSerial (serial : String) : List (String × CertRecord) → Option CertRecord
  | [] => none
  | e :: rest => if e.1 = serial then some e.2 else lookupSerial serial rest

/-- The raw remote read for one serial against the modelled backend. -/
def backendRead (b : Backend) (serial : String) : RawRead :=
  if serial ∈ b.readFail then .transportErr
  else
    match lookupSerial serial b.certs with
    | some r => .found r
    | none => .notFound

/-- The revoked classification computed inline in `fetchCertificateBySerial`
(main.go:251-258): starts `false`; if the `revocation_time` field is present
and its `Int64()` conversion succeeds with `rt` such that
`rt < time.Now().Unix() && rt > 0`, it becomes `true`.  A conversion error is
silently ignored. -/
def deriveRevoked (rt : Option JsonNumber) (now : Int) : Bool :=
  match rt with
  | none => false
  | some (.bad) => false
  | some (.ok n) => decide (n < now) && decide (0 < n)

/-- `fetchCertificateBySerial` (main.go:244-263).  A transport error returns a
wrapped error; a nil secret crashes at `cs.Data`; a missing `certificate`
field crashes at the type assertion; a nil `pem.Decode` block crashes at
`data.Bytes`; an `x509.ParseCertificate` failure is returned as an error; and
otherwise the parsed certificate is returned together with the derived
revoked flag. -/
def fetchCertificateBySerial (b : Backend) (now : Int) (serial : String) :
    ReadResult (ParsedCert × Bool) :=
  match backendRead b serial with
  | .transportErr => .err "Unable to read certificate: backend error"
  | .notFound => .crash
  | .found r =>
    let revoked := deriveRevoked r.revocationTime now
    match r.certificate with
    | none => .crash
    | some .noBlock => .crash
    | some .badDER => .err "x509: malformed certificate"
    | some (.good c) => .ok (c, revoked)

/-- The per-serial loop body of `fetchValidCertificatesFromVault`
(main.go:278-289): read each serial in order, abort on the first error,
silently drop revoked certificates, keep the rest in order. -/
def buildValid (b : Backend) (now : Int) : List String → ReadResult (List ParsedCert)
  | [] => .ok []
  | s :: rest =>
    match fetchCertificateBySerial b now s with
    | .crash => .crash
    | .err m => .err m
    | .ok (c, revoked) =>
      if revoked then buildValid b now rest
      else
        match buildValid b now rest with
        | .crash => .crash
        | .err m => .err m
        | .ok cs => .ok (c :: cs)

/-- `fetchValidCertificatesFromVault` (main.go:265-292): `LIST <mount>/certs`
(a transport error or a nil data map aborts the build), then read every
listed serial via `fetchCertificateBySerial`, failing the whole build on the
first per-serial failure. -/
def fetchValidCertificatesFromVault (b : Backend) (now : Int) :
    ReadResult (List ParsedCert) :=
  if b.listFail then .err "backend list error"
  else if b.listDataNil then .err "Got no data from backend"
  else buildValid b now (b.certs.map Prod.fst)

/-- `revokeCertificateBySerial` (main.go:309-330): read the certificate by
serial (errors and crashes propagate), succeed as a no-op when it is already
revoked, otherwise issue the `WRITE <mount>/revoke` call.  The second
component lists the revocation writes actually performed (by serial). -/
def revokeCertificateBySerial (b : Backend) (now : Int) (serial : String) :
    ReadResult Unit × List String :=
  match fetchCertificateBySerial b now serial with
  | .crash => (.crash, [])
  | .err m => (.err m, [])
  | .ok (_cert, revoked) =>
    if revoked then (.ok (), [])
    else if b.revokeFail then
      (.err ("Revoke of serial \"" ++ serial ++ "\" failed: backend error"), [])
    else (.ok (), [serial])

/-- `revokeCertificateByFQDN` (main.go:294-307): build the valid-certificates
view, scan it in order for the first certificate whose subject common name
equals `fqdn`, delegate to `revokeCertificateBySerial` on its hex-formatted
serial, and succeed as a no-op when no certificate matches. -/
def revokeCertificateByFQDN (b : Backend) (now : Int) (fqdn : String) :
    ReadResult Unit × List String :=
  match fetchValidCertificatesFromVault b now with
  | .crash => (.crash, [])
  | .err m => (.err m, [])
  | .ok certs =>
    match certs.find? (fun c => c.commonName = fqdn) with
    | some c => revokeCertificateBySerial b now c.serialHex
    | none => (.ok (), [])

/-- The FQDN-to-active-serial resolution embedded in the scan loop of
`revokeCertificateByFQDN` (main.go:295-304): the serial that a revocation (or
the spec's `resolveActiveSerial`) would act on, `none` meaning not found. -/
def resolveActive (b : Backend) (now : Int) (fqdn : String) :
    ReadResult (Option String) :=
  match fetchValidCertificatesFromVault b now with
  | .crash => .crash
  | .err m => .err m
  | .ok certs =>
    .ok (((certs.find? (fun c => c.commonName = fqdn))).map (fun c => c.serialHex))

/-- `getCACert` (main.go:332-340): read `<mount>/cert/ca` and return its
`certificate` field. -/
def getCACert (b : Backend) : ReadResult String :=
  if b.caFail then .err "Unable to read certificate: backend error"
  else .ok b.caPem

/-- `generateCertificate` (main.go:342-366): `WRITE <mount>/issue/<role>` with
the common name and TTL; a transport error or a nil data map is returned as
an error; on success the issued certificate and private key PEMs come back. -/
def generateCertificate (b : Backend) (_fqdn : String) :
    ReadResult (String × String) :=
  if b.issueFail then .err "backend issue error"
  else if b.issueDataNil then .err "Got no data from backend"
  else .ok (b.newCertPem, b.newKeyPem)

/-- `generateCertificateConfig` (main.go:204-228): when `cfg.AutoRevoke` is
set, first `revokeCertificateByFQDN` (its error aborts, wrapped); then
`getCACert`; then `generateCertificate`; then render the template.  The
result carries the revocation writes performed and whether the issuance write
succeeded (the template is rendered only after a successful issuance, so a
render failure still leaves the new certificate issued). -/
def generateCertificateConfig (b : Backend) (now : Int) (autoRevoke : Bool)
    (_tplName fqdn : String) : ReadResult Unit × List String × Bool :=
  match (if autoRevoke then revokeCertificateByFQDN b now fqdn else (.ok (), [])) with
  | (.crash, ws) => (.crash, ws, false)
  | (.err m, ws) => (.err ("Could not revoke certificate: " ++ m), ws, false)
  | (.ok _, ws) =>
    match getCACert b with
    | .crash => (.crash, ws, false)
    | .err m => (.err ("Could not load CA certificate: " ++ m), ws, false)
    | .ok _ca =>
      match generateCertificate b fqdn with
      | .crash => (.crash, ws, false)
      | .err m => (.err ("Could not generate new certificate: " ++ m), ws, false)
      | .ok _tv =>
        if b.tplFail then (.err "Could not render configuration: template error", ws, true)
        else (.ok (), ws, true)

/-- Modelled from the spec: the CA service itself is an external collaborator
(spec section 6), so its durable state transition is not in `src/`.  Per the
contract there and the state machine of section 4.4, a successful
`WRITE <mount>/revoke {serial_number: s}` records the revocation instant `t`
as the `revocation_time` of the record stored under `s`. -/
def applyRevocation (t : Int) (serial : String)
    (certs : List (String × CertRecord)) : List (String × CertRecord) :=
  certs.map (fun e =>
    if e.1 = serial then (e.1, { e.2 with revocationTime := some (.ok t) }) else e)

/-- Apply a sequence of revocation writes in order. -/
def applyWrites (t : Int) (ws : List String)
    (certs : List (String × CertRecord)) : List (String × CertRecord) :=
  ws.foldl (fun cs s => applyRevocation t s cs) certs

/-- Modelled from the spec: per the CA contract (spec section 6), a successful
`WRITE <mount>/issue/<role>` stores a fresh certificate record with the
requested common name, the CA-assigned serial, no revocation time, and the
CA-chosen validity window. -/
def newIssuedRecord (b : Backend) (fqdn : String) : String × CertRecord :=
  (b.newSerial,
    { revocationTime := none,
      certificate := some (.good
        ⟨fqdn, b.newSerial, b.newNotBefore, b.newNotAfter⟩) })

/-- The CA's stored records after one run of an operation that performed the
given revocation writes at instant `t` and, when the third component is
`true`, a successful issuance for `fqdn`. -/
def postState (b : Backend) (t : Int) (fqdn : String)
    (r : ReadResult Unit × List String × Bool) : List (String × CertRecord) :=
  let cs := applyWrites t r.2.1 b.certs
  if r.2.2 then cs ++ [newIssuedRecord b fqdn] else cs

/-- A stored record is well formed when its `certificate` field parses and the
parsed certificate's hex-formatted serial round-trips to the storage key
(spec section 6: the colon-delimited hex form is the consistent canonical
identity between the read and write paths). -/
def recGood (e : String × CertRecord) : Bool :=
  match e.2.certificate with
  | some (.good c) => c.serialHex = e.1
  | _ => false

/-- The subject common name of a stored record, when its certificate parses. -/
def entryCN (e : String × CertRecord) : Option String :=
  match e.2.certificate with
  | some (.good c) => some c.commonName
  | _ => none

/-- A stored record counts as an active certificate for `fqdn` at time `now`
when its certificate parses with common name `fqdn` and the derived revoked
classification is `false`. -/
def entryActive (now : Int) (fqdn : String) (e : String × CertRecord) : Bool :=
  entryCN e = some fqdn && !deriveRevoked e.2.revocationTime now

/-- The serials of the active certificates for `fqdn` at time `now`, in
directory order. -/
def activeFor (certs : List (String × CertRecord)) (now : Int)
    (fqdn : String) : List String :=
  (certs.filter (entryActive now fqdn)).map Prod.fst

/-- Every remote call of this backend succeeds. -/
def AllSuccess (b : Backend) : Prop :=
  b.listFail = false ∧ b.listDataNil = false ∧ b.readFail = [] ∧
    b.revokeFail = false ∧ b.caFail = false ∧ b.issueFail = false ∧
    b.issueDataNil = false ∧ b.tplFail = false

instance (b : Backend) : Decidable (AllSuccess b) := by
  unfold AllSuccess; infer_instance

/-- A well-formed backend: every stored record parses with a round-tripping
serial, the storage keys are distinct, and the serial the CA would assign to
the next issuance is fresh. -/
def WF (b : Backend) : Prop :=
  (∀ e ∈ b.certs, recGood e = true) ∧ (b.certs.map Prod.fst).Nodup ∧
    b.newSerial ∉ b.certs.map Prod.fst

instance (b : Backend) : Decidable (WF b) := by
  unfold WF; infer_instance

/-- The record that would be kept for a stored entry by the valid-certificates
build: its parsed certificate when not classified revoked. -/
def validOf (now : Int) (e : String × CertRecord) : Option ParsedCert :=
  match e.2.certificate with
  | some (.good c) => if deriveRevoked e.2.revocationTime now then none else some c
  | _ => none

/-- The revoked classification as the specification words it: revoked iff the
CA records a revocation timestamp that is set (non-zero, positive) and not in
the future relative to the current time.  Written from the specification text
only, to be compared against `deriveRevoked`, which is written from the
source. -/
def revokedPerSpecWords (rt : Option JsonNumber) (now : Int) : Bool :=
  match rt with
  | some (.ok n) => decide (0 < n) && decide (n ≤ now)
  | _ => false

/-- Convenience builder for concrete backends used in witness statements:
fixed issuance window and PEM payloads, everything else supplied. -/
def mkBackend (certs : List (String × CertRecord)) (readFail : List String)
    (listFail listDataNil revokeFail caFail issueFail issueDataNil tplFail : Bool)
    (newSerial : String) : Backend :=
  { certs := certs, readFail := readFail, listFail := listFail,
    listDataNil := listDataNil, revokeFail := revokeFail, caFail := caFail,
    issueFail := issueFail, issueDataNil := issueDataNil, tplFail := tplFail,
    newSerial := newSerial, newNotBefore := 0, newNotAfter := 1000,
    caPem := "CAPEM", newCertPem := "CERTPEM", newKeyPem := "KEYPEM" }

/-- A stored record whose certificate parses, with validity window [0, 100]. -/
def goodRecord (cn serial : String) (rt : Option JsonNumber) : CertRecord :=
  { revocationTime := rt, certificate := some (.good ⟨cn, serial, 0, 100⟩) }

/-- A stored record with no revocation time whose certificate parses with an
arbitrary `notAfter` (possibly already in the past). -/
def unrevokedRecord (cn serial : String) (na : Int) : CertRecord :=
  { revocationTime := none, certificate := some (.good ⟨cn, serial, 0, na⟩) }

/-- Concrete backend of the resolver example: serial "1" active and serial "2"
revoked, both for common name "a". -/
def backendTwo : Backend :=
  mkBackend [("1", goodRecord "a" "1" none), ("2", goodRecord "a" "2" (some (.ok 1)))]
    [] false false false false false false false "9"

/-- Concrete backend whose `LIST <mount>/certs` call fails. -/
def backendListFail : Backend :=
  mkBackend [] [] true false false false false false false "9"

/-- Concrete backend holding one revoked certificate for common name "a". -/
def backendRevoked : Backend :=
  mkBackend [("1", goodRecord "a" "1" (some (.ok 1)))]
    [] false false false false false false false "9"

/-- Concrete backend holding one record whose `revocation_time` field fails
`Int64()` conversion. -/
def backendBadNumber : Backend :=
  mkBackend [("1", goodRecord "a" "1" (some .bad))]
    [] false false false false false false false "9"

/-- Concrete backend holding two active certificates for common name "a" (the
at-most-one-active target state already violated). -/
def backendDouble : Backend :=
  mkBackend [("1", goodRecord "a" "1" none), ("2", goodRecord "a" "2" none)]
    [] false false false false false false false "9"

/-- Concrete backend holding one record whose certificate PEM parses but whose
DER contents do not (`x509.ParseCertificate` fails). -/
def backendBadDER : Backend :=
  mkBackend [("1", { revocationTime := none, certificate := some .badDER })]
    [] false false false false false false false "9"

/-! ### Helper lemmas about the embedded operations -/

/-- The parsed certificate and round-tripping serial packed in `recGood`. -/
theorem recGood_iff {e : String × CertRecord} :
    recGood e = true ↔
      ∃ c, e.2.certificate = some (.good c) ∧ c.serialHex = e.1 := by
  unfold recGood
  cases h : e.2.certificate with
  | none => simp
  | some pc => cases pc <;> simp [decide_eq_true_iff]

/-- Under distinct storage keys, looking up the key of a stored entry returns
exactly that entry's record. -/
theorem lookupSerial_of_mem {l : List (String × CertRecord)}
    {e : String × CertRecord} (he : e ∈ l)
    (hn : (l.map Prod.fst).Nodup) : lookupSerial e.1 l = some e.2 := by
  induction l with
  | nil => cases he
  | cons a rest ih =>
    rw [List.map_cons, List.nodup_cons] at hn
    rcases List.mem_cons.mp he with h | h
    · subst h; simp [lookupSerial]
    · have hne : a.1 ≠ e.1 := by
        intro hk
        exact hn.1 (hk ▸ List.mem_map.mpr ⟨e, h, rfl⟩)
      simpa [lookupSerial, hne] using ih h hn.2

/-- When every serial in the processed list resolves (without transport error)
to a well-formed record, the per-serial build loop succeeds and returns
exactly the unrevoked parsed certificates in order. -/
theorem buildValid_ok {b : Backend} {now : Int}
    {l : List (String × CertRecord)} (hrf : b.readFail = [])
    (hl : ∀ e ∈ l, lookupSerial e.1 b.certs = some e.2)
    (hg : ∀ e ∈ l, recGood e = true) :
    buildValid b now (l.map Prod.fst) = .ok (l.filterMap (validOf now)) := by
  induction l with
  | nil => simp [buildValid]
  | cons e rest ih =>
    obtain ⟨c, hc, _⟩ := recGood_iff.mp (hg e (List.mem_cons_self e rest))
    have hle : lookupSerial e.1 b.certs = some e.2 :=
      hl e (List.mem_cons_self e rest)
    have hfetch : fetchCertificateBySerial b now e.1 =
        .ok (c, deriveRevoked e.2.revocationTime now) := by
      unfold fetchCertificateBySerial backendRead
      rw [hrf, hle]
      simp [hc]
    have ihr := ih (fun x hx => hl x (List.mem_cons_of_mem e hx))
      (fun x hx => hg x (List.mem_cons_of_mem e hx))
    rw [List.map_cons]
    unfold buildValid
    rw [hfetch]
    by_cases hrev : deriveRevoked e.2.revocationTime now
    · simp only [hrev, if_true, ihr, List.filterMap_cons]
      simp [validOf, hc, hrev]
    · simp only [Bool.not_eq_true] at hrev
      simp only [hrev, if_false, ihr, List.filterMap_cons]
      simp [validOf, hc, hrev]

/-- On an all-reads-succeed, well-keyed backend the directory build succeeds
with exactly the unrevoked stored certificates, in storage order. -/
theorem fetchValid_ok {b : Backend} {now : Int}
    (hlf : b.listFail = false) (hld : b.listDataNil = false)
    (hrf : b.readFail = []) (hg : ∀ e ∈ b.certs, recGood e = true)
    (hn : (b.certs.map Prod.fst).Nodup) :
    fetchValidCertificatesFromVault b now =
      .ok (b.certs.filterMap (validOf now)) := by
  unfold fetchValidCertificatesFromVault
  rw [hlf, hld]
  simp only [Bool.false_eq_true, if_false]
  exact buildValid_ok hrf (fun e he => lookupSerial_of_mem he hn) hg

/-- Scanning the filtered valid certificates for the first common-name match
is the same as taking the head of the active entries, up to the serial. -/
theorem find_valid_eq_head_filter {now : Int} {fqdn : String}
    {l : List (String × CertRecord)} (hg : ∀ e ∈ l, recGood e = true) :
    ((l.filterMap (validOf now)).find? (fun c => c.commonName = fqdn)).map
        (fun c => c.serialHex) =
      ((l.filter (entryActive now fqdn)).head?).map Prod.fst := by
  induction l with
  | nil => simp
  | cons e rest ih =>
    obtain ⟨c, hc, hs⟩ := recGood_iff.mp (hg e (List.mem_cons_self e rest))
    have ihr := ih (fun x hx => hg x (List.mem_cons_of_mem e hx))
    rw [List.filterMap_cons, List.filter_cons]
    by_cases hrev : deriveRevoked e.2.revocationTime now
    · have h1 : validOf now e = none := by simp [validOf, hc, hrev]
      have h2 : entryActive now fqdn e = false := by
        simp [entryActive, hrev]
      rw [h1, h2]
      simpa using ihr
    · simp only [Bool.not_eq_true] at hrev
      have h1 : validOf now e = some c := by simp [validOf, hc, hrev]
      rw [h1]
      by_cases hcn : c.commonName = fqdn
      · have h2 : entryActive now fqdn e = true := by
          simp [entryActive, entryCN, hc, hcn, hrev]
        rw [h2]
        simp [List.find?_cons, hcn, hs]
      · have h2 : entryActive now fqdn e = false := by
          simp [entryActive, entryCN, hc, hcn]
        rw [h2]
        simp only [if_neg (by simp [hcn] : ¬((decide (c.commonName = fqdn)) = true))]
        simpa [List.find?_cons, hcn] using ihr

/-- The derived revoked classification only moves forward in time: a record
classified revoked now is classified revoked at every later instant. -/
theorem deriveRevoked_mono {rt : Option JsonNumber} {t t' : Int}
    (h : deriveRevoked rt t = true) (htt : t ≤ t') :
    deriveRevoked rt t' = true := by
  cases rt with
  | none => simp [deriveRevoked] at h
  | some jn =>
    cases jn with
    | bad => simp [deriveRevoked] at h
    | ok n =>
      simp only [deriveRevoked, Bool.and_eq_true, decide_eq_true_iff] at h ⊢
      exact ⟨lt_of_lt_of_le h.1 htt, h.2⟩

/-- The revoked classification in arithmetic form. -/
theorem deriveRevoked_true_iff {rt : Option JsonNumber} {now : Int} :
    deriveRevoked rt now = true ↔
      ∃ n, rt = some (.ok n) ∧ 0 < n ∧ n < now := by
  cases rt with
  | none => simp [deriveRevoked]
  | some jn =>
    cases jn with
    | bad => simp [deriveRevoked]
    | ok n =>
      simp only [deriveRevoked, Bool.and_eq_true, decide_eq_true_iff]
      constructor
      · rintro ⟨h1, h2⟩; exact ⟨n, rfl, h2, h1⟩
      · rintro ⟨m, hm, h1, h2⟩
        cases hm
        exact ⟨h2, h1⟩

/-- A revocation write for one serial leaves every other stored record
untouched. -/
theorem lookupSerial_applyRevocation_ne {t : Int} {s s1 : String}
    {l : List (String × CertRecord)} (hne : s ≠ s1) :
    lookupSerial s (applyRevocation t s1 l) = lookupSerial s l := by
  induction l with
  | nil => rfl
  | cons e rest ih =>
    simp only [applyRevocation, List.map_cons] at ih ⊢
    by_cases hk : e.1 = s1
    · have hks : ¬e.1 = s := fun h => hne ((h ▸ hk).symm ▸ rfl)
      rw [if_pos hk]
      rw [lookupSerial, lookupSerial, if_neg hks, if_neg hks]
      exact ih
    · rw [if_neg hk]
      rw [lookupSerial, lookupSerial]
      by_cases hks : e.1 = s
      · rw [if_pos hks, if_pos hks]
      · rw [if_neg hks, if_neg hks]
        exact ih

/-- An entry classified revoked is not active, whatever its common name. -/
theorem entryActive_false_of_revoked {t : Int} {fqdn : String}
    {e : String × CertRecord} (h : deriveRevoked e.2.revocationTime t = true) :
    entryActive t fqdn e = false := by
  simp [entryActive, h]

/-- Inactivity persists: an entry not active for `fqdn` now is still not
active at any later instant (its record unchanged). -/
theorem entryActive_false_mono {now t' : Int} {fqdn : String}
    {e : String × CertRecord} (h : entryActive now fqdn e = false)
    (htt : now ≤ t') : entryActive t' fqdn e = false := by
  by_cases hcn : entryCN e = some fqdn
  · have hrev : deriveRevoked e.2.revocationTime now = true := by
      cases hd : deriveRevoked e.2.revocationTime now with
      | true => rfl
      | false => simp [entryActive, hcn, hd] at h
    exact entryActive_false_of_revoked (deriveRevoked_mono hrev htt)
  · simp [entryActive, hcn]

/-- When an FQDN has at least one active certificate, `revokeCertificateByFQDN`
on a healthy, well-keyed backend succeeds and performs exactly one revocation
write: for the serial of the first active entry in directory order. -/
theorem revokeByFQDN_first_active {b : Backend} {now : Int} {fqdn s : String}
    {rest : List String}
    (hlf : b.listFail = false) (hld : b.listDataNil = false)
    (hrf : b.readFail = []) (hrv : b.revokeFail = false)
    (hg : ∀ e ∈ b.certs, recGood e = true)
    (hn : (b.certs.map Prod.fst).Nodup)
    (hact : activeFor b.certs now fqdn = s :: rest) :
    revokeCertificateByFQDN b now fqdn = (.ok (), [s]) := by
  have hfv := @fetchValid_ok b now hlf hld hrf hg hn
  cases hf : b.certs.filter (entryActive now fqdn) with
  | nil => rw [activeFor, hf] at hact; cases hact
  | cons es l2 =>
    rw [activeFor, hf, List.map_cons] at hact
    have hes1 : es.1 = s := (List.cons_eq_cons.mp hact).1
    have hfind : ((b.certs.filterMap (validOf now)).find?
        (fun c => c.commonName = fqdn)).map (fun c => c.serialHex) = some s := by
      rw [find_valid_eq_head_filter hg, hf]
      simp [hes1]
    obtain ⟨c, hc, hcs⟩ := Option.map_eq_some'.mp hfind
    have hmem : es ∈ b.certs.filter (entryActive now fqdn) := by
      rw [hf]; exact List.mem_cons_self es l2
    obtain ⟨hin, hactive⟩ := List.mem_filter.mp hmem
    have hlk : lookupSerial s b.certs = some es.2 := by
      rw [← hes1]; exact lookupSerial_of_mem hin hn
    obtain ⟨cs, hcert, _⟩ := recGood_iff.mp (hg es hin)
    have hnrev : deriveRevoked es.2.revocationTime now = false := by
      cases hd : deriveRevoked es.2.revocationTime now with
      | false => rfl
      | true => simp [entryActive, hd] at hactive
    have hrbs : revokeCertificateBySerial b now s = (.ok (), [s]) := by
      unfold revokeCertificateBySerial fetchCertificateBySerial backendRead
      rw [hrf, hlk]
      simp [hcert, hnrev, hrv]
    simp only [revokeCertificateByFQDN, hfv, hc, hcs, hrbs]

/-- If one of the listed serials errors on read and none of them panics, the
per-serial build loop ends in an error. -/
theorem buildValid_err {b : Backend} {now : Int} :
    ∀ (ks : List String) (s m : String), s ∈ ks →
      fetchCertificateBySerial b now s = .err m →
      (∀ s2 ∈ ks, fetchCertificateBySerial b now s2 ≠ .crash) →
      ∃ m2, buildValid b now ks = .err m2 := by
  intro ks
  induction ks with
  | nil => intro s m h _ _; cases h
  | cons k rest ih =>
    intro s m hs herr hnc
    cases hk : fetchCertificateBySerial b now k with
    | crash => exact absurd hk (hnc k (List.mem_cons_self k rest))
    | err mk => exact ⟨mk, by simp [buildValid, hk]⟩
    | ok p =>
      have hsrest : s ∈ rest := by
        rcases List.mem_cons.mp hs with h | h
        · subst h; rw [hk] at herr; cases herr
        · exact h
      obtain ⟨m2, hm2⟩ :=
        ih s m hsrest herr (fun x hx => hnc x (List.mem_cons_of_mem k hx))
      refine ⟨m2, ?_⟩
      obtain ⟨c, rv⟩ := p
      cases rv <;> simp [buildValid, hk, hm2]

/-!  ### The claims  -/

/-- C2: whenever the auto-revoke step inside the issue pipeline returns an
error, `generateCertificateConfig` run with auto-revoke set returns that
error (wrapped with the revoke context), performs exactly the writes the
revoke step performed, and never reaches the issuance write. -/
theorem issuance_abort_on_revoke_error :
    ∀ (b : Backend) (now : Int) (tpl fqdn m : String) (ws : List String),
      revokeCertificateByFQDN b now fqdn = (.err m, ws) →
      generateCertificateConfig b now true tpl fqdn =
        (.err ("Could not revoke certificate: " ++ m), ws, false) := by
  intro b now tpl fqdn m ws h
  simp [generateCertificateConfig, h]

/-- C2 (witness): a backend whose list call fails makes the auto-revoke step
fail, and the issue pipeline aborts with the wrapped revoke error and no
issuance. -/
theorem issuance_abort_on_revoke_error_witness :
    revokeCertificateByFQDN backendListFail 10 "a" =
        (.err "backend list error", []) ∧
      generateCertificateConfig backendListFail 10 true "client.conf" "a" =
        (.err "Could not revoke certificate: backend list error", [], false) :=
  ⟨by decide,
    issuance_abort_on_revoke_error backendListFail 10 "client.conf" "a"
      "backend list error" [] (by decide)⟩

/-- C3 (counterexample): at the boundary instant where the recorded
`revocation_time` equals the current time, the specification's words
(present, positive, not in the future) classify the certificate revoked,
while the code's classification (which requires `rt < now` strictly) does
not. -/
theorem revoked_boundary_counterexample :
    revokedPerSpecWords (some (.ok 5)) 5 = true ∧
      deriveRevoked (some (.ok 5)) 5 = false := by
  exact ⟨by decide, by decide⟩

/-- C3 (amended): the derived revoked status is true iff the response's
`revocation_time` is present, converts to a positive integer, and is strictly
in the past (`rt < now`); the classification reads only `revocation_time`
and the current time, so a certificate whose `notAfter` has passed but whose
`revocation_time` is absent is still read back as not revoked. -/
theorem deriveRevoked_iff_past_positive :
    (∀ (rt : Option JsonNumber) (now : Int),
        deriveRevoked rt now = true ↔
          ∃ n, rt = some (.ok n) ∧ 0 < n ∧ n < now) ∧
      ∀ (now na : Int) (cn s : String),
        fetchCertificateBySerial
            (mkBackend [(s, unrevokedRecord cn s na)]
              [] false false false false false false false "9") now s =
          .ok (⟨cn, s, 0, na⟩, false) := by
  constructor
  · intro rt now
    exact deriveRevoked_true_iff
  · intro now na cn s
    simp [fetchCertificateBySerial, backendRead, mkBackend, lookupSerial,
      unrevokedRecord, deriveRevoked]

/-- C4: reading a serial that does not exist in the CA makes
`fetchCertificateBySerial` panic (Vault returns a nil secret and the code
dereferences `cs.Data`), as do a response missing the `certificate` field
(failed type assertion) and a certificate string `pem.Decode` cannot handle
(`data.Bytes` on a nil block); the panic propagates through
`revokeCertificateBySerial` instead of surfacing as a returned error. -/
theorem fetch_crashes_on_bad_responses :
    fetchCertificateBySerial
        (mkBackend [] [] false false false false false false false "9") 10 "01" =
      .crash ∧
    revokeCertificateBySerial
        (mkBackend [] [] false false false false false false false "9") 10 "01" =
      (.crash, []) ∧
    fetchCertificateBySerial
        (mkBackend [("02", { revocationTime := none, certificate := none })]
          [] false false false false false false false "9") 10 "02" =
      .crash ∧
    fetchCertificateBySerial
        (mkBackend [("03", { revocationTime := none, certificate := some .noBlock })]
          [] false false false false false false false "9") 10 "03" =
      .crash := by
  exact ⟨by decide, by decide, by decide, by decide⟩

/-- C6: revoking a serial whose stored certificate is already classified
revoked succeeds as a no-op: no revocation write is issued against the CA. -/
theorem revokeBySerial_idempotent_on_revoked :
    ∀ (b : Backend) (now : Int) (serial : String) (r : CertRecord) (c : ParsedCert),
      serial ∉ b.readFail →
      lookupSerial serial b.certs = some r →
      r.certificate = some (.good c) →
      deriveRevoked r.revocationTime now = true →
      revokeCertificateBySerial b now serial = (.ok (), []) := by
  intro b now serial r c hrf hlk hc hrev
  unfold revokeCertificateBySerial fetchCertificateBySerial backendRead
  rw [hlk]
  simp [hrf, hc, hrev]

/-- C6 (witness): revoking the already-revoked serial "1" of the concrete
backend is a successful no-op. -/
theorem revokeBySerial_idempotent_on_revoked_witness :
    (lookupSerial "1" backendRevoked.certs = some (goodRecord "a" "1" (some (.ok 1))) ∧
        deriveRevoked (goodRecord "a" "1" (some (.ok 1))).revocationTime 10 = true) ∧
      revokeCertificateBySerial backendRevoked 10 "1" = (.ok (), []) :=
  ⟨⟨by decide, by decide⟩,
    revokeBySerial_idempotent_on_revoked backendRevoked 10 "1"
      (goodRecord "a" "1" (some (.ok 1))) ⟨"a", "1", 0, 100⟩
      (by decide) (by decide) (by decide) (by decide)⟩

/-- C7: revoking an FQDN that has no active certificate succeeds as a no-op
with no revocation write, provided the directory build itself succeeds (the
backend lists and reads cleanly and every stored record parses with distinct
round-tripping serials). -/
theorem revokeByFQDN_noop_when_absent :
    ∀ (b : Backend) (now : Int) (fqdn : String),
      b.listFail = false → b.listDataNil = false → b.readFail = [] →
      (∀ e ∈ b.certs, recGood e = true) → (b.certs.map Prod.fst).Nodup →
      activeFor b.certs now fqdn = [] →
      revokeCertificateByFQDN b now fqdn = (.ok (), []) := by
  intro b now fqdn hlf hld hrf hg hn hact
  have hfv := @fetchValid_ok b now hlf hld hrf hg hn
  have hfe : b.certs.filter (entryActive now fqdn) = [] :=
    List.map_eq_nil_iff.mp hact
  have hfind :
      (b.certs.filterMap (validOf now)).find? (fun c => c.commonName = fqdn) = none := by
    have h := @find_valid_eq_head_filter now fqdn b.certs hg
    rw [hfe] at h
    simp only [List.head?_nil, Option.map_none'] at h
    exact Option.map_eq_none'.mp h
  simp only [revokeCertificateByFQDN, hfv, hfind]

/-- C7 (witness): the concrete backend stores only a revoked certificate for
"a", so revoking "a" (and also the absent "b") is a successful no-op. -/
theorem revokeByFQDN_noop_when_absent_witness :
    activeFor backendRevoked.certs 10 "a" = [] ∧
      revokeCertificateByFQDN backendRevoked 10 "a" = (.ok (), []) :=
  ⟨by decide,
    revokeByFQDN_noop_when_absent backendRevoked 10 "a" rfl rfl rfl
      (by decide) (by decide) (by decide)⟩

/-- If one of the listed serials errors on read, the per-serial build loop
never produces a successful certificate list. -/
theorem buildValid_ne_ok {b : Backend} {now : Int} :
    ∀ (ks : List String) (s m : String), s ∈ ks →
      fetchCertificateBySerial b now s = .err m →
      ∀ l, buildValid b now ks ≠ .ok l := by
  intro ks
  induction ks with
  | nil => intro s m h _ _; cases h
  | cons k rest ih =>
    intro s m hs herr l
    cases hk : fetchCertificateBySerial b now k with
    | crash => simp [buildValid, hk]
    | err mk => simp [buildValid, hk]
    | ok p =>
      have hsrest : s ∈ rest := by
        rcases List.mem_cons.mp hs with h | h
        · subst h; rw [hk] at herr; cases herr
        · exact h
      obtain ⟨c, rv⟩ := p
      cases hrest : buildValid b now rest with
      | crash => cases rv <;> simp [buildValid, hk, hrest]
      | err m2 => cases rv <;> simp [buildValid, hk, hrest]
      | ok cs => exact absurd hrest (ih s m hsrest herr cs)

/-- C8: if the read of any single listed serial returns an error during the
directory build, the whole `fetchValidCertificatesFromVault` build never
returns a certificate list as success, and — provided no read panics (the
separate crash defect) — it returns an error. -/
theorem build_fails_on_any_serial_error :
    ∀ (b : Backend) (now : Int) (s m : String),
      b.listFail = false → b.listDataNil = false →
      s ∈ b.certs.map Prod.fst →
      fetchCertificateBySerial b now s = .err m →
      (∀ l, fetchValidCertificatesFromVault b now ≠ .ok l) ∧
        ((∀ s2 ∈ b.certs.map Prod.fst, fetchCertificateBySerial b now s2 ≠ .crash) →
          ∃ m2, fetchValidCertificatesFromVault b now = .err m2) := by
  intro b now s m hlf hld hs herr
  constructor
  · intro l
    unfold fetchValidCertificatesFromVault
    rw [hlf, hld]
    simpa using buildValid_ne_ok (b.certs.map Prod.fst) s m hs herr l
  · intro hnc
    obtain ⟨m2, hm2⟩ := buildValid_err (b.certs.map Prod.fst) s m hs herr hnc
    refine ⟨m2, ?_⟩
    unfold fetchValidCertificatesFromVault
    rw [hlf, hld]
    simpa using hm2

/-- C8 (witness): a backend whose only stored record holds an unparsable DER
certificate fails the read of serial "1" with an error, and the whole build
fails. -/
theorem build_fails_on_any_serial_error_witness :
    (fetchCertificateBySerial backendBadDER 10 "1" =
        .err "x509: malformed certificate" ∧
        "1" ∈ backendBadDER.certs.map Prod.fst) ∧
      ∃ m2, fetchValidCertificatesFromVault backendBadDER 10 = .err m2 :=
  ⟨⟨by decide, by decide⟩,
    (build_fails_on_any_serial_error backendBadDER 10 "1"
      "x509: malformed certificate" rfl rfl (by decide) (by decide)).2
      (by decide)⟩

/-- C10: a `revocation_time` field whose `Int64()` conversion fails is
silently ignored: the certificate is classified not revoked, the read
succeeds, and a directory build over such a record succeeds and includes the
certificate. -/
theorem badNumber_silently_unrevoked :
    ∀ (b : Backend) (now : Int) (serial : String) (r : CertRecord) (c : ParsedCert),
      serial ∉ b.readFail →
      lookupSerial serial b.certs = some r →
      r.revocationTime = some .bad →
      r.certificate = some (.good c) →
      fetchCertificateBySerial b now serial = .ok (c, false) ∧
        (b.certs = [(serial, r)] → b.listFail = false → b.listDataNil = false →
          fetchValidCertificatesFromVault b now = .ok [c]) := by
  intro b now serial r c hrf hlk hrt hc
  have hfetch : fetchCertificateBySerial b now serial = .ok (c, false) := by
    unfold fetchCertificateBySerial backendRead
    rw [hlk]
    simp [hrf, hc, hrt, deriveRevoked]
  refine ⟨hfetch, ?_⟩
  intro hcs hlf hld
  unfold fetchValidCertificatesFromVault
  rw [hlf, hld, hcs]
  simp [buildValid, hfetch]

/-- C10 (witness): the concrete backend stores one record whose
`revocation_time` does not convert; the read succeeds unrevoked and the build
lists the certificate. -/
theorem badNumber_silently_unrevoked_witness :
    (lookupSerial "1" backendBadNumber.certs = some (goodRecord "a" "1" (some .bad)) ∧
        (goodRecord "a" "1" (some .bad)).revocationTime = some .bad) ∧
      fetchCertificateBySerial backendBadNumber 10 "1" =
          .ok (⟨"a", "1", 0, 100⟩, false) ∧
        (backendBadNumber.certs = [("1", goodRecord "a" "1" (some .bad))] →
          backendBadNumber.listFail = false → backendBadNumber.listDataNil = false →
          fetchValidCertificatesFromVault backendBadNumber 10 =
            .ok [⟨"a", "1", 0, 100⟩]) :=
  ⟨⟨by decide, by decide⟩,
    badNumber_silently_unrevoked backendBadNumber 10 "1"
      (goodRecord "a" "1" (some .bad)) ⟨"a", "1", 0, 100⟩
      (by decide) (by decide) (by decide) (by decide)⟩

/-- C5: on a backend that lists and reads cleanly with well-formed distinct
records, resolving an FQDN scans the non-revoked certificates in directory
order and yields the serial of the first whose common name equals the FQDN
exactly, `none` (not an error) when no active certificate matches; in
particular on the directory holding (fqdn=a, serial=1, active) then (fqdn=a,
serial=2, revoked), resolving "a" yields serial "1" and resolving an absent
name yields `none`. -/
theorem resolver_first_match :
    (∀ (b : Backend) (now : Int) (fqdn : String),
        b.listFail = false → b.listDataNil = false → b.readFail = [] →
        (∀ e ∈ b.certs, recGood e = true) → (b.certs.map Prod.fst).Nodup →
        resolveActive b now fqdn =
          .ok (((b.certs.filter (entryActive now fqdn)).head?).map Prod.fst)) ∧
      resolveActive backendTwo 10 "a" = .ok (some "1") ∧
      resolveActive backendTwo 10 "zzz" = .ok none := by
  refine ⟨?_, by decide, by decide⟩
  intro b now fqdn hlf hld hrf hg hn
  have hfv := @fetchValid_ok b now hlf hld hrf hg hn
  simp only [resolveActive, hfv]
  rw [find_valid_eq_head_filter hg]

/-- C5 (witness): the resolver characterization applied to the concrete
two-certificate backend. -/
theorem resolver_first_match_witness :
    ((∀ e ∈ backendTwo.certs, recGood e = true) ∧
        (backendTwo.certs.map Prod.fst).Nodup) ∧
      resolveActive backendTwo 10 "a" =
        .ok (((backendTwo.certs.filter (entryActive 10 "a")).head?).map Prod.fst) :=
  ⟨⟨by decide, by decide⟩,
    resolver_first_match.1 backendTwo 10 "a" rfl rfl rfl (by decide) (by decide)⟩

/-- C9: when two or more certificates for the same FQDN are active (the
at-most-one-active target state already violated), `revokeCertificateByFQDN`
returns success after exactly one revocation write — for the first active
entry in directory order — and leaves the stored record of every other
serial untouched, so the extra active certificates stay unrevoked. -/
theorem revokeByFQDN_single_write_frame :
    ∀ (b : Backend) (now : Int) (fqdn s1 s2 : String) (rest : List String),
      b.listFail = false → b.listDataNil = false → b.readFail = [] →
      b.revokeFail = false →
      (∀ e ∈ b.certs, recGood e = true) → (b.certs.map Prod.fst).Nodup →
      activeFor b.certs now fqdn = s1 :: s2 :: rest →
      revokeCertificateByFQDN b now fqdn = (.ok (), [s1]) ∧
        ∀ s, s ≠ s1 →
          lookupSerial s (applyWrites now [s1] b.certs) =
            lookupSerial s b.certs := by
  intro b now fqdn s1 s2 rest hlf hld hrf hrv hg hn hact
  refine ⟨revokeByFQDN_first_active hlf hld hrf hrv hg hn hact, ?_⟩
  intro s hs
  show lookupSerial s (applyRevocation now s1 b.certs) = lookupSerial s b.certs
  exact lookupSerial_applyRevocation_ne hs

/-- C9 (witness): on the concrete backend with two active certificates for
"a", revocation writes only serial "1" and leaves serial "2" untouched. -/
theorem revokeByFQDN_single_write_frame_witness :
    activeFor backendDouble.certs 10 "a" = "1" :: "2" :: [] ∧
      revokeCertificateByFQDN backendDouble 10 "a" = (.ok (), ["1"]) ∧
        ∀ s, s ≠ "1" →
          lookupSerial s (applyWrites 10 ["1"] backendDouble.certs) =
            lookupSerial s backendDouble.certs :=
  ⟨by decide,
    revokeByFQDN_single_write_frame backendDouble 10 "a" "1" "2" []
      rfl rfl rfl rfl (by decide) (by decide) (by decide)⟩

/-- C1: on a well-formed backend where every call succeeds, issuing with
auto-revoke for an FQDN that has exactly one active certificate (serial `s`)
revokes exactly `s`, issues the new certificate, and at any later observation
instant exactly one certificate is active for that FQDN: the newly issued
one. -/
theorem issueWithPolicy_single_active :
    ∀ (b : Backend) (now t' : Int) (tpl fqdn s : String),
      AllSuccess b → WF b → 0 < now → now < t' →
      activeFor b.certs now fqdn = [s] →
      generateCertificateConfig b now true tpl fqdn = (.ok (), [s], true) ∧
        activeFor
            (postState b now fqdn (generateCertificateConfig b now true tpl fqdn))
            t' fqdn = [b.newSerial] ∧
        s ≠ b.newSerial := by
  intro b now t' tpl fqdn s hAS hWF h0 htt hact
  obtain ⟨hlf, hld, hrf, hrv, hca, hif, hid, htpl⟩ := hAS
  obtain ⟨hg, hn, hfresh⟩ := hWF
  have hrun : revokeCertificateByFQDN b now fqdn = (.ok (), [s]) :=
    revokeByFQDN_first_active hlf hld hrf hrv hg hn hact
  have hgen : generateCertificateConfig b now true tpl fqdn = (.ok (), [s], true) := by
    simp [generateCertificateConfig, hrun, getCACert, generateCertificate,
      hca, hif, hid, htpl]
  have hpost : postState b now fqdn (generateCertificateConfig b now true tpl fqdn)
      = applyRevocation now s b.certs ++ [newIssuedRecord b fqdn] := by
    rw [hgen]
    simp [postState, applyWrites]
  cases hf : b.certs.filter (entryActive now fqdn) with
  | nil => rw [activeFor, hf] at hact; simp at hact
  | cons es l2 =>
    rw [activeFor, hf, List.map_cons] at hact
    have hes1 : es.1 = s := (List.cons_eq_cons.mp hact).1
    have hl2 : l2 = [] := List.map_eq_nil_iff.mp (List.cons_eq_cons.mp hact).2
    have huniq : ∀ y ∈ b.certs, entryActive now fqdn y = true → y = es := by
      intro y hy hpy
      have hyf : y ∈ b.certs.filter (entryActive now fqdn) :=
        List.mem_filter.mpr ⟨hy, hpy⟩
      rw [hf, hl2] at hyf
      simpa using hyf
    have hinactive : ∀ e ∈ applyRevocation now s b.certs,
        entryActive t' fqdn e = false := by
      intro e he
      rw [applyRevocation] at he
      obtain ⟨x, hx, hxe⟩ := List.mem_map.mp he
      by_cases hk : x.1 = s
      · rw [if_pos hk] at hxe
        subst hxe
        exact entryActive_false_of_revoked (by simp [deriveRevoked, htt, h0])
      · rw [if_neg hk] at hxe
        subst hxe
        have hcur : entryActive now fqdn x = false := by
          by_contra hc
          rw [Bool.not_eq_false] at hc
          exact hk (by rw [huniq x hx hc, hes1])
        exact entryActive_false_mono hcur (le_of_lt htt)
    have hfil : (applyRevocation now s b.certs).filter (entryActive t' fqdn) = [] :=
      List.filter_eq_nil_iff.mpr (fun a ha => by simp [hinactive a ha])
    have hnew : entryActive t' fqdn (newIssuedRecord b fqdn) = true := by
      simp [entryActive, entryCN, newIssuedRecord, deriveRevoked]
    have hmemes : es ∈ b.certs :=
      (List.mem_filter.mp (hf ▸ List.mem_cons_self es l2)).1
    have hskey : s ∈ b.certs.map Prod.fst :=
      hes1 ▸ List.mem_map.mpr ⟨es, hmemes, rfl⟩
    have hneq : s ≠ b.newSerial := fun h => hfresh (h ▸ hskey)
    refine ⟨hgen, ?_, hneq⟩
    have hfil2 : (applyRevocation now s b.certs ++ [newIssuedRecord b fqdn]).filter
        (entryActive t' fqdn) = [newIssuedRecord b fqdn] := by
      rw [List.filter_append, hfil, List.nil_append, List.filter_cons, hnew]
      simp
    rw [hpost, activeFor, hfil2]
    rfl

/-- C1 (witness): on the concrete backend with exactly one active certificate
for "a" (serial "1", the revoked serial "2" aside), issuing with auto-revoke
revokes "1", issues the fresh serial "9", and "9" is the only active
certificate for "a" afterwards. -/
theorem issueWithPolicy_single_active_witness :
    (AllSuccess backendTwo ∧ WF backendTwo ∧ (0 : Int) < 10 ∧ (10 : Int) < 20 ∧
        activeFor backendTwo.certs 10 "a" = ["1"]) ∧
      generateCertificateConfig backendTwo 10 true "client.conf" "a" =
          (.ok (), ["1"], true) ∧
        activeFor
            (postState backendTwo 10 "a"
              (generateCertificateConfig backendTwo 10 true "client.conf" "a"))
            20 "a" = [backendTwo.newSerial] ∧
        "1" ≠ backendTwo.newSerial :=
  ⟨⟨by decide, by decide, by decide, by decide, by decide⟩,
    issueWithPolicy_single_active backendTwo 10 20 "client.conf" "a" "1"
      (by decide) (by decide) (by decide) (by decide) (by decide)⟩
